import Mathlib

/-!
Verification of the mev-inspector decode-and-detect pipeline.

The Go sources are embedded shallowly:

* `pkg/types` data model becomes Lean structures (`Swap`, `Arbitrage`);
  `big.Int` amounts become `Int`, `common.Address` values become the
  natural number below `2 ^ 160` they denote, byte slices become
  `List Byte` with `Byte := Fin 256`.
* Each chain-RPC call that a decoder issues is modelled by an oracle
  function giving the call's final outcome after the client's internal
  retries (`Except String result`); the retry loop itself lives in the
  external RPC collaborator and only its exhaustion outcome is visible
  to the code under verification.
* Stateful pieces (the per-decoder pool-metadata cache, the pipeline
  watermark) are modelled by explicit state passing.
-/

set_option maxRecDepth 8192
set_option linter.unnecessarySeqFocus false

namespace MevInspector

/-- A byte of calldata or log payload. -/
abbrev Byte := Fin 256

/-- An Ethereum address, modelled as its 160-bit numeric value. -/
abbrev Address := Nat

/-- Big-endian interpretation of a byte slice, Go `new(big.Int).SetBytes`. -/
def bytesToNat (bs : List Byte) : Nat :=
  bs.foldl (fun acc b => acc * 256 + b.val) 0

/-- The 32-byte word of `data` starting at byte offset `start`. -/
def wordAt (data : List Byte) (start : Nat) : List Byte :=
  (data.drop start).take 32

/-- Whether the top bit of the byte at offset `start` is set,
Go `data[start]&0x80 != 0`. -/
def topBitSet (data : List Byte) (start : Nat) : Bool :=
  Nat.testBit (data.getD start 0).val 7

/-- Two's-complement reading of the 32-byte word at offset `start`:
`SetBytes` followed by subtracting `1 <<< 256` when the top bit is set,
exactly as the V3 decoder does for `amount0`, `amount1` and `tick`. -/
def signedWordAt (data : List Byte) (start : Nat) : Int :=
  if topBitSet data start then (bytesToNat (wordAt data start) : Int) - 2 ^ 256
  else (bytesToNat (wordAt data start) : Int)

/-- Unsigned reading of the 32-byte word at offset `start`. -/
def unsignedWordAt (data : List Byte) (start : Nat) : Int :=
  (bytesToNat (wordAt data start) : Int)

/-- `common.HexToAddress(topic.Hex())`: an address is the low 20 bytes of a
32-byte word. -/
def addrOfWord (w : Nat) : Address := w % 2 ^ 160

/-- A raw event log as delivered by `getLogs`
(`go-ethereum` `types.Log`, the fields the pipeline reads). -/
structure RawLog where
  address : Address
  topics : List Nat
  data : List Byte
  txHash : Nat
  blockNumber : Nat
  index : Nat
  deriving Repr, DecidableEq, Inhabited

/-- Normalized swap, `pkg/types.Swap`. The three V3-specific fields are
`Option` because the V2 decoder leaves them nil. -/
structure Swap where
  txHash : Nat
  blockNumber : Nat
  logIndex : Nat
  pool : Address
  protocol : String
  sender : Address
  recipient : Address
  token0 : Address
  token1 : Address
  amount0In : Int
  amount1In : Int
  amount0Out : Int
  amount1Out : Int
  sqrtPriceX96 : Option Int
  liquidity : Option Int
  tick : Option Int
  deriving Repr, DecidableEq, Inhabited

/-- Detected arbitrage, `pkg/types.Arbitrage`. `gasPrice` and
`netProfitWei` are `Option` because the Go struct leaves those pointer
fields nil until the gas-augmentation step succeeds. -/
structure Arbitrage where
  txHash : Nat
  blockNumber : Nat
  arbitrageur : Address
  path : List Swap
  tokenStart : Address
  tokenEnd : Address
  amountIn : Int
  amountOut : Int
  profit : Int
  profitToken : Address
  gasUsed : Nat
  gasPrice : Option Int
  netProfitWei : Option Int
  deriving Repr, DecidableEq, Inhabited

/-- Outcome of one `CallContract` read (after the client's retries are
exhausted or it succeeds): the oracle maps a contract address and calldata
to returned bytes or a terminal error. -/
abbrev CallOracle := Address → List Byte → Except String (List Byte)

/-- Go map lookup for the pool-metadata caches (`poolCache[poolAddress]`). -/
def cacheLookup {I : Type} : List (Address × I) → Address → Option I
  | [], _ => none
  | (k, v) :: rest, a => if a = k then some v else cacheLookup rest a

/-- Insertion sort by a boolean `le`; stands in for Go `sort.Slice`
(the comparison keys used by the pipeline are total, so the choice of
sorting algorithm is observationally irrelevant). -/
def insertLe {α : Type} (le : α → α → Bool) (a : α) : List α → List α
  | [] => [a]
  | b :: rest => if le a b then a :: b :: rest else b :: insertLe le a rest

/-- Sorting front-end for `insertLe`. -/
def sortLe {α : Type} (le : α → α → Bool) : List α → List α
  | [] => []
  | a :: rest => insertLe le a (sortLe le rest)

namespace uniswapv2

/-- Keccak hash of the V2 `Swap` event signature (source constant). -/
def SwapEventSignature : Nat :=
  0xd78ad95fa46c994b6551d0da85fc275fe613ce37657fb8d5e3d130840159d822

/-- Cached metadata of a V2 pair, `uniswapv2.PoolInfo`; the reserve fields
stay nil in `getPoolInfo`. -/
structure PoolInfo where
  token0 : Address
  token1 : Address
  reserve0 : Option Int
  reserve1 : Option Int
  deriving Repr, DecidableEq, Inhabited

/-- Selector of `token0()`, `0x0dfe1681`. -/
def token0Selector : List Byte := [0x0d, 0xfe, 0x16, 0x81]

/-- Selector of `token1()`, `0xd21220a7`. -/
def token1Selector : List Byte := [0xd2, 0x12, 0x20, 0xa7]

/-- `callToken0`: read `token0()` from the pair contract; the result must be
at least 32 bytes and the address is `result[12:32]`. -/
def callToken0 (oracle : CallOracle) (poolAddress : Address) : Except String Address :=
  match oracle poolAddress token0Selector with
  | .error e => .error e
  | .ok result =>
    if result.length < 32 then .error ("invalid token0 response")
    else .ok (bytesToNat ((result.drop 12).take 20))

/-- `callToken1`: read `token1()` from the pair contract. -/
def callToken1 (oracle : CallOracle) (poolAddress : Address) : Except String Address :=
  match oracle poolAddress token1Selector with
  | .error e => .error e
  | .ok result =>
    if result.length < 32 then .error ("invalid token1 response")
    else .ok (bytesToNat ((result.drop 12).take 20))

/-- `uniswapv2.Decoder.getPoolInfo` with the cache made explicit: returns
the result, the new cache, and how many on-chain calls were issued. -/
def getPoolInfo (oracle : CallOracle) (poolCache : List (Address × PoolInfo))
    (poolAddress : Address) :
    Except String PoolInfo × List (Address × PoolInfo) × Nat :=
  match cacheLookup poolCache poolAddress with
  | some i => (.ok i, poolCache, 0)
  | none =>
    match callToken0 oracle poolAddress with
    | .error e => (.error ("failed to get token0: " ++ e), poolCache, 1)
    | .ok t0 =>
      match callToken1 oracle poolAddress with
      | .error e => (.error ("failed to get token1: " ++ e), poolCache, 2)
      | .ok t1 =>
        let i : PoolInfo := ⟨t0, t1, none, none⟩
        (.ok i, (poolAddress, i) :: poolCache, 2)

/-- `uniswapv2.Decoder.DecodeSwapLog`. The cached `getPoolInfo` lookup is
abstracted as the resolution function `poolInfoOf` (its visible value is
determined by the oracle, as proved about `getPoolInfo` separately). -/
def DecodeSwapLog (poolInfoOf : Address → Except String PoolInfo) (log : RawLog) :
    Except String Swap :=
  if log.topics.length < 3 then
    .error ("invalid swap log: expected 3 topics")
  else if log.topics.headD 0 ≠ SwapEventSignature then
    .error ("not a Uniswap V2 swap event")
  else if log.data.length < 128 then
    .error ("invalid swap log data length: expected 128 bytes")
  else
    match poolInfoOf log.address with
    | .error e => .error ("failed to get pool info: " ++ e)
    | .ok info =>
      .ok { txHash := log.txHash
            blockNumber := log.blockNumber
            logIndex := log.index
            pool := log.address
            protocol := "uniswap_v2"
            sender := addrOfWord (log.topics.getD 1 0)
            recipient := addrOfWord (log.topics.getD 2 0)
            token0 := info.token0
            token1 := info.token1
            amount0In := unsignedWordAt log.data 0
            amount1In := unsignedWordAt log.data 32
            amount0Out := unsignedWordAt log.data 64
            amount1Out := unsignedWordAt log.data 96
            sqrtPriceX96 := none
            liquidity := none
            tick := none }

end uniswapv2

namespace uniswapv3

/-- Keccak hash of the V3 `Swap` event signature (source constant). -/
def SwapEventSignature : Nat :=
  0xc42079f94a6350d7e6235f29174924f928cc2ac818eb64fed8004e115fbcca67

/-- Cached metadata of a V3 pool, `uniswapv3.PoolInfo`. -/
structure PoolInfo where
  token0 : Address
  token1 : Address
  fee : Nat
  deriving Repr, DecidableEq, Inhabited

/-- Selector of `fee()`, `0xddca3f43`. -/
def feeSelector : List Byte := [0xdd, 0xca, 0x3f, 0x43]

/-- `callToken0` on a V3 pool (same selector and extraction as V2). -/
def callToken0 (oracle : CallOracle) (poolAddress : Address) : Except String Address :=
  match oracle poolAddress uniswapv2.token0Selector with
  | .error e => .error e
  | .ok result =>
    if result.length < 32 then .error ("invalid token0 response")
    else .ok (bytesToNat ((result.drop 12).take 20))

/-- `callToken1` on a V3 pool. -/
def callToken1 (oracle : CallOracle) (poolAddress : Address) : Except String Address :=
  match oracle poolAddress uniswapv2.token1Selector with
  | .error e => .error e
  | .ok result =>
    if result.length < 32 then .error ("invalid token1 response")
    else .ok (bytesToNat ((result.drop 12).take 20))

/-- `callFee`: read `fee()`; the Go code narrows `SetBytes(result)` through
`uint32(fee.Uint64())`, i.e. reduction modulo `2 ^ 64` then `2 ^ 32`. -/
def callFee (oracle : CallOracle) (poolAddress : Address) : Except String Nat :=
  match oracle poolAddress feeSelector with
  | .error e => .error e
  | .ok result =>
    if result.length < 32 then .error ("invalid fee response")
    else .ok (bytesToNat result % 2 ^ 64 % 2 ^ 32)

/-- `uniswapv3.Decoder.getPoolInfo` with explicit cache state and call
count: three independent reads, any failure aborts with the cache
untouched, success stores the complete entry. -/
def getPoolInfo (oracle : CallOracle) (poolCache : List (Address × PoolInfo))
    (poolAddress : Address) :
    Except String PoolInfo × List (Address × PoolInfo) × Nat :=
  match cacheLookup poolCache poolAddress with
  | some i => (.ok i, poolCache, 0)
  | none =>
    match callToken0 oracle poolAddress with
    | .error e => (.error ("failed to get token0: " ++ e), poolCache, 1)
    | .ok t0 =>
      match callToken1 oracle poolAddress with
      | .error e => (.error ("failed to get token1: " ++ e), poolCache, 2)
      | .ok t1 =>
        match callFee oracle poolAddress with
        | .error e => (.error ("failed to get fee: " ++ e), poolCache, 3)
        | .ok fee =>
          let i : PoolInfo := ⟨t0, t1, fee⟩
          (.ok i, (poolAddress, i) :: poolCache, 3)

/-- `uniswapv3.Decoder.DecodeSwapLog`: validate topics and payload length,
read `amount0`, `amount1` and `tick` with two's-complement sign
resolution, resolve pool metadata, and split each signed amount into the
nonnegative In/Out pair. -/
def DecodeSwapLog (poolInfoOf : Address → Except String PoolInfo) (log : RawLog) :
    Except String Swap :=
  if log.topics.length < 3 then
    .error ("invalid swap log: expected 3 topics")
  else if log.topics.headD 0 ≠ SwapEventSignature then
    .error ("not a Uniswap V3 swap event")
  else if log.data.length < 160 then
    .error ("invalid swap log data length: expected 160 bytes")
  else
    let amount0 := signedWordAt log.data 0
    let amount1 := signedWordAt log.data 32
    let sqrtPriceX96 := unsignedWordAt log.data 64
    let liquidity := unsignedWordAt log.data 96
    let tick := signedWordAt log.data 128
    match poolInfoOf log.address with
    | .error e => .error ("failed to get pool info: " ++ e)
    | .ok info =>
      let a0 : Int × Int := if 0 < amount0 then (amount0, 0) else (0, -amount0)
      let a1 : Int × Int := if 0 < amount1 then (amount1, 0) else (0, -amount1)
      .ok { txHash := log.txHash
            blockNumber := log.blockNumber
            logIndex := log.index
            pool := log.address
            protocol := "uniswap_v3"
            sender := addrOfWord (log.topics.getD 1 0)
            recipient := addrOfWord (log.topics.getD 2 0)
            token0 := info.token0
            token1 := info.token1
            amount0In := a0.1
            amount1In := a1.1
            amount0Out := a0.2
            amount1Out := a1.2
            sqrtPriceX96 := some sqrtPriceX96
            liquidity := some liquidity
            tick := some tick }

end uniswapv3

/-- Byte-wise lexicographic comparison of character lists; Go compares
strings byte-wise, and for the ASCII hex strings at issue char-wise and
byte-wise orders coincide. -/
def lexLt : List Char → List Char → Bool
  | [], [] => false
  | [], _ :: _ => true
  | _ :: _, [] => false
  | a :: as, b :: bs => if a < b then true else if a = b then lexLt as bs else false

/-- Go `<` on strings. -/
def goStringLt (a b : String) : Bool := lexLt a.data b.data

/-- Numeric value of one hex digit (either case). -/
def hexDigitVal (c : Char) : Nat :=
  if ('0' ≤ c ∧ c ≤ '9') then c.toNat - '0'.toNat
  else if ('a' ≤ c ∧ c ≤ 'f') then c.toNat - 'a'.toNat + 10
  else if ('A' ≤ c ∧ c ≤ 'F') then c.toNat - 'A'.toNat + 10
  else 0

/-- Numeric value denoted by a 0x-prefixed hexadecimal string, independent
of letter case: the numeric order on addresses against which the textual
order of the grouping key is compared. -/
def hexStringVal (s : String) : Nat :=
  (s.data.drop 2).foldl (fun acc c => acc * 16 + hexDigitVal c) 0

namespace decoder

/-- `decoder.Decoder.GetAllSwapLogs`: `v2Logs` and `v3Logs` are the
outcomes of the per-protocol `GetSwapLogs` fetches (each a `client.GetLogs`
after internal retries). A failed fetch is only logged as a warning and
contributes no logs; the function itself never returns an error. The
merged list is sorted by (block number, log index). -/
def GetAllSwapLogs (enableV2 enableV3 : Bool)
    (v2Logs v3Logs : Except String (List RawLog)) : Except String (List RawLog) :=
  let l2 : List RawLog :=
    if enableV2 then (match v2Logs with | .ok ls => ls | .error _ => []) else []
  let l3 : List RawLog :=
    if enableV3 then (match v3Logs with | .ok ls => ls | .error _ => []) else []
  .ok (sortLe
    (fun a b =>
      if a.blockNumber ≠ b.blockNumber then a.blockNumber < b.blockNumber
      else a.index ≤ b.index)
    (l2 ++ l3))

/-- `decoder.Decoder.DecodeSwapLog`: dispatch on the first topic; an empty
topic list or an unrecognized signature yields no swap and no error. A
disabled protocol's decoder is nil, so its logs fall through to `none`. -/
def DecodeSwapLog (enableV2 enableV3 : Bool)
    (v2PoolInfoOf : Address → Except String uniswapv2.PoolInfo)
    (v3PoolInfoOf : Address → Except String uniswapv3.PoolInfo)
    (log : RawLog) : Except String (Option Swap) :=
  if log.topics.length = 0 then .ok none
  else if log.topics.headD 0 = uniswapv2.SwapEventSignature then
    if enableV2 then (uniswapv2.DecodeSwapLog v2PoolInfoOf log).map some else .ok none
  else if log.topics.headD 0 = uniswapv3.SwapEventSignature then
    if enableV3 then (uniswapv3.DecodeSwapLog v3PoolInfoOf log).map some else .ok none
  else .ok none

/-- `decoder.Decoder.DecodeSwapsForTransaction`: decode each log, skipping
any log whose decode errors (sibling logs keep processing), then sort the
surviving swaps by log index. The Go function's error return is
identically nil, so the model returns just the list. -/
def DecodeSwapsForTransaction (enableV2 enableV3 : Bool)
    (v2PoolInfoOf : Address → Except String uniswapv2.PoolInfo)
    (v3PoolInfoOf : Address → Except String uniswapv3.PoolInfo)
    (logs : List RawLog) : List Swap :=
  sortLe (fun a b => a.logIndex ≤ b.logIndex)
    (logs.filterMap fun log =>
      match DecodeSwapLog enableV2 enableV3 v2PoolInfoOf v3PoolInfoOf log with
      | .error _ => none
      | .ok none => none
      | .ok (some s) => some s)

end decoder

namespace arbitrage

/-- The reference token: WETH mainnet address (source constant). -/
def WETH : Address := 0xC02aaA39b223FE8D0A0e5C4F27eAD9083C756Cc2

/-- Per-swap token flow derived inside `detectCyclicArbitrage`. -/
structure TokenFlow where
  tokenIn : Address
  tokenOut : Address
  amountIn : Int
  amountOut : Int
  deriving Repr, DecidableEq, Inhabited

/-- Flow derivation for one swap, in the source's priority order: the two
clean direction cases first, then the mixed V3-style case that resolves
each side independently from whichever amount is positive. Unresolved
sides keep the zero value of the Go zero-initialized struct. -/
def flowOf (swap : Swap) : TokenFlow :=
  if 0 < swap.amount0In ∧ 0 < swap.amount1Out then
    ⟨swap.token0, swap.token1, swap.amount0In, swap.amount1Out⟩
  else if 0 < swap.amount1In ∧ 0 < swap.amount0Out then
    ⟨swap.token1, swap.token0, swap.amount1In, swap.amount0Out⟩
  else
    let fIn : Address × Int :=
      if 0 < swap.amount0In then (swap.token0, swap.amount0In)
      else if 0 < swap.amount1In then (swap.token1, swap.amount1In)
      else (0, 0)
    let fOut : Address × Int :=
      if 0 < swap.amount0Out then (swap.token0, swap.amount0Out)
      else if 0 < swap.amount1Out then (swap.token1, swap.amount1Out)
      else (0, 0)
    ⟨fIn.1, fOut.1, fIn.2, fOut.2⟩

/-- The flow list built by `detectCyclicArbitrage`: flows with either side
left at the zero address are dropped from consideration. -/
def deriveFlows (swaps : List Swap) : List TokenFlow :=
  swaps.filterMap fun swap =>
    let flow := flowOf swap
    if flow.tokenIn ≠ 0 ∧ flow.tokenOut ≠ 0 then some flow else none

/-- The connectivity loop of `detectCyclicArbitrage`:
`flows[i].tokenOut == flows[i+1].tokenIn` for every `i < len(flows)-1`. -/
def flowsConnected (flows : List TokenFlow) : Bool :=
  (List.range (flows.length - 1)).all fun i =>
    (flows.getD i default).tokenOut == (flows.getD (i + 1) default).tokenIn

/-- `Detector.detectCyclicArbitrage`: at most one finding per transaction.
Requires at least two derived flows, a closed cycle, full connectivity,
and a strictly positive profit; the finding's path is the whole swap
list and its start, end and profit tokens are the shared first token. -/
def detectCyclicArbitrage (swaps : List Swap) : Option Arbitrage :=
  if swaps.length < 2 then none
  else
    let flows := deriveFlows swaps
    if flows.length < 2 then none
    else if (flows.headD default).tokenIn ≠ (flows.getLastD default).tokenOut then none
    else if flowsConnected flows = false then none
    else if (flows.getLastD default).amountOut ≤ (flows.headD default).amountIn then none
    else
      some { txHash := (swaps.headD default).txHash
             blockNumber := (swaps.headD default).blockNumber
             arbitrageur := (swaps.headD default).sender
             path := swaps
             tokenStart := (flows.headD default).tokenIn
             tokenEnd := (flows.getLastD default).tokenOut
             amountIn := (flows.headD default).amountIn
             amountOut := (flows.getLastD default).amountOut
             profit := (flows.getLastD default).amountOut - (flows.headD default).amountIn
             profitToken := (flows.headD default).tokenIn
             gasUsed := 0
             gasPrice := none
             netProfitWei := none }

/-- The pair-key normalization of `detectCrossDEXArbitrage`: compare the
two token addresses by the Go string order of their canonical hex text
(`hexRepr` abstracts `common.Address.Hex`, the EIP-55 representation
produced by the external go-ethereum library) and put the lexically
smaller first. -/
def pairKeyOf (hexRepr : Address → String) (t0 t1 : Address) : Address × Address :=
  if goStringLt (hexRepr t0) (hexRepr t1) then (t0, t1) else (t1, t0)

/-- The buy-leg condition: the reference token is one of the pool's tokens
and its amount is on the In side. -/
def isBuyLeg (s : Swap) : Bool :=
  (s.token0 == WETH && 0 < s.amount0In) || (s.token1 == WETH && 0 < s.amount1In)

/-- The leg-selection loop over one pair group: first WETH-involving swap
satisfying the buy condition becomes the buy leg, first WETH-involving
swap failing it becomes the sell leg. -/
def selectLegs : List Swap → Option Swap → Option Swap → Option Swap × Option Swap
  | [], buySwap, sellSwap => (buySwap, sellSwap)
  | s :: rest, buySwap, sellSwap =>
    if s.token0 == WETH || s.token1 == WETH then
      if isBuyLeg s then
        selectLegs rest (match buySwap with | none => some s | some b => some b) sellSwap
      else
        selectLegs rest buySwap (match sellSwap with | none => some s | some b => some b)
    else selectLegs rest buySwap sellSwap

/-- Reference-token amount spent by a buy leg. -/
def wethInOf (s : Swap) : Int :=
  if s.token0 == WETH then s.amount0In else s.amount1In

/-- Reference-token amount received by a sell leg. -/
def wethOutOf (s : Swap) : Int :=
  if s.token0 == WETH then s.amount0Out else s.amount1Out

/-- Number of distinct pool addresses touched by a swap group (the
`pools` set of the source). -/
def distinctPools (swaps : List Swap) : Nat :=
  ((swaps.map fun s => s.pool).dedup).length

/-- The per-group body of `detectCrossDEXArbitrage` (lines 211-286): a
group with fewer than two swaps or fewer than two distinct pools yields
nothing; otherwise the first buy and sell legs must sit on different
pools and the reference-token delta must be strictly positive. -/
def processPairGroup (swapsForPair : List Swap) : Option Arbitrage :=
  if swapsForPair.length < 2 then none
  else if distinctPools swapsForPair < 2 then none
  else
    match selectLegs swapsForPair none none with
    | (some buySwap, some sellSwap) =>
      if buySwap.pool ≠ sellSwap.pool then
        if wethInOf buySwap < wethOutOf sellSwap then
          some { txHash := buySwap.txHash
                 blockNumber := buySwap.blockNumber
                 arbitrageur := buySwap.sender
                 path := [buySwap, sellSwap]
                 tokenStart := WETH
                 tokenEnd := WETH
                 amountIn := wethInOf buySwap
                 amountOut := wethOutOf sellSwap
                 profit := wethOutOf sellSwap - wethInOf buySwap
                 profitToken := WETH
                 gasUsed := 0
                 gasPrice := none
                 netProfitWei := none }
        else none
      else none
    | _ => none

/-- `Detector.detectCrossDEXArbitrage`: group the swaps by normalized pair
key and process each group. Go iterates the group map in unspecified
order; the model fixes first-occurrence key order, which affects only the
order of the returned findings, not their content per group. -/
def detectCrossDEXArbitrage (hexRepr : Address → String) (swaps : List Swap) :
    List Arbitrage :=
  let keyOf : Swap → Address × Address := fun s => pairKeyOf hexRepr s.token0 s.token1
  let keys := (swaps.map keyOf).dedup
  keys.filterMap fun key => processPairGroup (swaps.filter fun s => keyOf s = key)

/-- Go `int64(x)` applied to a `uint64`: values of `2 ^ 63` and above wrap
to negatives. -/
def int64OfUInt64 (n : Nat) : Int :=
  if n % 2 ^ 64 < 2 ^ 63 then (n % 2 ^ 64 : Int) else (n % 2 ^ 64 : Int) - 2 ^ 64

/-- Receipt data used by gas augmentation. -/
structure ReceiptData where
  gasUsed : Nat
  deriving Repr, DecidableEq, Inhabited

/-- Transaction data used by gas augmentation. -/
structure TxData where
  gasPrice : Int
  deriving Repr, DecidableEq, Inhabited

/-- The gas-augmentation step of `DetectArbitrage` (lines 47-55 and 62-69):
on receipt success set gas used; on additional transaction success set gas
price and net profit; on either failure leave the remaining fields as they
were. -/
def augmentWithGas (receiptRes : Except String ReceiptData)
    (txRes : Except String TxData) (arb : Arbitrage) : Arbitrage :=
  match receiptRes with
  | .error _ => arb
  | .ok receipt =>
    let arb1 := { arb with gasUsed := receipt.gasUsed }
    match txRes with
    | .error _ => arb1
    | .ok tx =>
      let gasCost := int64OfUInt64 receipt.gasUsed * tx.gasPrice
      { arb1 with gasPrice := some tx.gasPrice
                  netProfitWei := some (arb1.profit - gasCost) }

/-- `Detector.DetectArbitrage`: fewer than two swaps yields no findings
and no error; otherwise sort by log index, run both detectors, and
augment every finding with gas data. The receipt and transaction fetch
outcomes are modelled once per transaction (the Go code re-issues the
same two fetches per finding). The Go error return is identically nil. -/
def DetectArbitrage (hexRepr : Address → String)
    (receiptRes : Except String ReceiptData) (txRes : Except String TxData)
    (swaps : List Swap) : List Arbitrage × Option String :=
  if swaps.length < 2 then ([], none)
  else
    let sorted := sortLe (fun a b => a.logIndex ≤ b.logIndex) swaps
    let cyclic := (detectCyclicArbitrage sorted).map (augmentWithGas receiptRes txRes)
    let crossDex := (detectCrossDEXArbitrage hexRepr sorted).map
      (augmentWithGas receiptRes txRes)
    (cyclic.toList ++ crossDex, none)

/-- `Detector.IsProfitable`: fall back to the gross-profit sign when net
profit is unset. -/
def IsProfitable (arb : Arbitrage) : Bool :=
  match arb.netProfitWei with
  | none => 0 < arb.profit
  | some np => 0 < np

end arbitrage

namespace inspector

/-- The range selection of `Inspector.processNewBlocks` (lines 105-124):
`fromBlock = lastBlock+1`; a head below it is a no-op; the upper bound is
the head, capped at `fromBlock + batchSize - 1` when the head exceeds
`fromBlock` by more than `batchSize`. -/
def computeRange (lastBlock currentBlock batchSize : Nat) : Option (Nat × Nat) :=
  let fromBlock := lastBlock + 1
  if currentBlock < fromBlock then none
  else
    let toBlock :=
      if batchSize < currentBlock - fromBlock then fromBlock + batchSize - 1
      else currentBlock
    some (fromBlock, toBlock)

/-- One poll tick, `Inspector.processNewBlocks` (lines 105-139), returning
the new watermark and the tick's error. `headRes` is the outcome of the
retried head lookup. Inside `processBlockRange`, per-transaction decode
and detection errors are swallowed with `continue` and `GetAllSwapLogs`
never returns an error, so after a successful head lookup with new blocks
the tick always ends by advancing the watermark to the range's upper
bound. -/
def processNewBlocks (lastBlock : Nat) (headRes : Except String Nat)
    (batchSize : Nat) (enableV2 enableV3 : Bool)
    (v2Logs v3Logs : Except String (List RawLog)) : Nat × Option String :=
  match headRes with
  | .error e => (lastBlock, some e)
  | .ok currentBlock =>
    match computeRange lastBlock currentBlock batchSize with
    | none => (lastBlock, none)
    | some (_fromBlock, toBlock) =>
      match decoder.GetAllSwapLogs enableV2 enableV3 v2Logs v3Logs with
      | .error e => (lastBlock, some e)
      | .ok _logs => (toBlock, none)

end inspector

/-- C10: a transaction with fewer than two swaps produces no findings and
no error from `DetectArbitrage`. -/
theorem detect_arbitrage_short_swap_list_empty (hexRepr : Address → String)
    (receiptRes : Except String arbitrage.ReceiptData)
    (txRes : Except String arbitrage.TxData) (swaps : List Swap)
    (h : swaps.length < 2) :
    arbitrage.DetectArbitrage hexRepr receiptRes txRes swaps = ([], none) := by
  simp [arbitrage.DetectArbitrage, h]

/-- Witness for C10 at a concrete single-swap list. -/
theorem detect_arbitrage_short_swap_list_empty_witness :
    ([(default : Swap)].length < 2)
    ∧ arbitrage.DetectArbitrage (fun _ => ("")) (.error ("rpc"))
        (.error ("rpc")) [(default : Swap)] = ([], none) :=
  ⟨by decide,
   detect_arbitrage_short_swap_list_empty (fun _ => ("")) (.error ("rpc"))
     (.error ("rpc")) [(default : Swap)] (by decide)⟩

/-- C4 counterexample: with watermark 0, head 3 and batch size 2 the code
selects the range [1, 3], while the claim's formula
[watermark+1, min(head, watermark+batch)] gives [1, 2]. -/
theorem range_selection_min_formula_counterexample :
    inspector.computeRange 0 3 2 = some (1, 3)
    ∧ min 3 (0 + 2) = 2 ∧ (3 : Nat) ≠ 2 := by decide

/-- C4 amended: the tick is a no-op when head < watermark+1; otherwise the
range is [watermark+1, head] whenever head ≤ watermark + batch + 1, and
[watermark+1, watermark + batch] beyond that — one more block than the
claimed min(head, watermark+batch) cap exactly when
head = watermark + batch + 1. -/
theorem range_selection_characterization (lastBlock currentBlock batchSize : Nat) :
    (currentBlock < lastBlock + 1 →
        inspector.computeRange lastBlock currentBlock batchSize = none)
    ∧ (lastBlock + 1 ≤ currentBlock →
        inspector.computeRange lastBlock currentBlock batchSize =
          some (lastBlock + 1,
            if currentBlock ≤ lastBlock + batchSize + 1 then currentBlock
            else lastBlock + batchSize)) := by
  refine ⟨fun h => ?_, fun h => ?_⟩
  · simp [inspector.computeRange, h]
  · simp only [inspector.computeRange]
    rw [if_neg (by omega)]
    have hsel :
        (if batchSize < currentBlock - (lastBlock + 1)
            then lastBlock + 1 + batchSize - 1 else currentBlock)
          = (if currentBlock ≤ lastBlock + batchSize + 1 then currentBlock
            else lastBlock + batchSize) := by
      split_ifs <;> omega
    rw [hsel]

/-- Witness for C4's amended characterization at watermark 10, head 100,
batch 5: the range is [11, 15]. -/
theorem range_selection_characterization_witness :
    (10 + 1 ≤ 100) ∧ inspector.computeRange 10 100 5 = some (11, 15) :=
  ⟨by decide, by
    have h := (range_selection_characterization 10 100 5).2 (by decide)
    simpa using h⟩

/-- C1 counterexample: watermark 10, head 12, V2 enabled and its log fetch
exhausted — the tick still reports no error and advances the watermark to
12, so the range is not abandoned and not retried. -/
theorem log_fetch_exhaustion_counterexample :
    inspector.processNewBlocks 10 (.ok 12) 100 true false
      (.error ("rpc retries exhausted")) (.ok []) = (12, none)
    ∧ (12 : Nat) ≠ 10 := by decide

/-- C1 amended: an exhausted swap-log fetch is not fatal for the range.
`GetAllSwapLogs` always succeeds (a failed protocol fetch only drops that
protocol's logs), so whenever the head lookup succeeds and new blocks
exist the tick ends with no error and the watermark set to the range's
upper bound — for any positive batch size strictly above the old
watermark, so the identical range is not retried. -/
theorem log_fetch_exhaustion_not_fatal (lastBlock currentBlock batchSize : Nat)
    (enableV2 enableV3 : Bool) (v2Logs v3Logs : Except String (List RawLog))
    (h : lastBlock + 1 ≤ currentBlock) :
    (∃ logs, decoder.GetAllSwapLogs enableV2 enableV3 v2Logs v3Logs = .ok logs)
    ∧ inspector.processNewBlocks lastBlock (.ok currentBlock) batchSize
        enableV2 enableV3 v2Logs v3Logs =
        (if batchSize < currentBlock - (lastBlock + 1)
            then lastBlock + 1 + batchSize - 1 else currentBlock, none)
    ∧ (1 ≤ batchSize →
        lastBlock < (if batchSize < currentBlock - (lastBlock + 1)
          then lastBlock + 1 + batchSize - 1 else currentBlock)) := by
  refine ⟨⟨_, rfl⟩, ?_, ?_⟩
  · simp only [inspector.processNewBlocks, inspector.computeRange,
      decoder.GetAllSwapLogs]
    rw [if_neg (by omega)]
  · intro hb
    split <;> omega

/-- Witness for C1's amended theorem: both protocol fetches exhausted, yet
the tick succeeds and the watermark moves from 10 to 12. -/
theorem log_fetch_exhaustion_not_fatal_witness :
    (10 + 1 ≤ 12)
    ∧ (∃ logs, decoder.GetAllSwapLogs true true (.error ("rpc")) (.error ("rpc"))
        = .ok logs)
    ∧ inspector.processNewBlocks 10 (.ok 12) 100 true true (.error ("rpc"))
        (.error ("rpc")) = (if 100 < 12 - (10 + 1) then 10 + 1 + 100 - 1 else 12, none) :=
  ⟨by decide,
   (log_fetch_exhaustion_not_fatal 10 12 100 true true (.error ("rpc"))
     (.error ("rpc")) (by decide)).1,
   (log_fetch_exhaustion_not_fatal 10 12 100 true true (.error ("rpc"))
     (.error ("rpc")) (by decide)).2.1⟩

/-- C9 counterexample: with a receipt reporting gas used `2 ^ 63` and gas
price 1, the code converts gas used through `int64` and wraps, producing
net profit `+2 ^ 63` instead of the claimed
gross profit − gasUsed × gasPrice = `−2 ^ 63`. -/
theorem net_profit_int64_wrap_counterexample :
    (arbitrage.augmentWithGas (.ok ⟨2 ^ 63⟩) (.ok ⟨1⟩)
        (default : Arbitrage)).netProfitWei = some (2 ^ 63)
    ∧ (default : Arbitrage).profit - (2 ^ 63 : Int) * 1 = -(2 ^ 63)
    ∧ ((2 ^ 63 : Int)) ≠ -(2 ^ 63) := by decide

/-- C9 amended: when both fetches succeed, net profit equals gross profit
minus gasUsed × gasPrice provided gas used is below `2 ^ 63` (the code
routes the unsigned 64-bit gas used through a signed 64-bit conversion,
which wraps above that); when either fetch fails, net profit is left as it
was (unset for a fresh finding), and a finding with unset net profit is
judged profitable exactly when its gross profit is strictly positive. -/
theorem gas_augmentation_characterization (receipt : arbitrage.ReceiptData)
    (tx : arbitrage.TxData) (e : String)
    (txRes : Except String arbitrage.TxData) (arb : Arbitrage) :
    ((arbitrage.augmentWithGas (.ok receipt) (.ok tx) arb).netProfitWei
        = some (arb.profit - arbitrage.int64OfUInt64 receipt.gasUsed * tx.gasPrice))
    ∧ (receipt.gasUsed < 2 ^ 63 →
        (arbitrage.augmentWithGas (.ok receipt) (.ok tx) arb).netProfitWei
          = some (arb.profit - (receipt.gasUsed : Int) * tx.gasPrice))
    ∧ ((arbitrage.augmentWithGas (.error e) txRes arb).netProfitWei
        = arb.netProfitWei)
    ∧ ((arbitrage.augmentWithGas (.ok receipt) (.error e) arb).netProfitWei
        = arb.netProfitWei)
    ∧ (arb.netProfitWei = none →
        (arbitrage.IsProfitable arb = true ↔ 0 < arb.profit)) := by
  refine ⟨rfl, fun hlt => ?_, rfl, rfl, fun hnone => ?_⟩
  · have hwrap : arbitrage.int64OfUInt64 receipt.gasUsed = (receipt.gasUsed : Int) := by
      unfold arbitrage.int64OfUInt64
      rw [Nat.mod_eq_of_lt (by omega), if_pos hlt]
      omega
    rw [← hwrap]
    rfl
  · simp [arbitrage.IsProfitable, hnone]

/-- Witness for C9's amended theorem: receipt gas 21000, gas price 5. -/
theorem gas_augmentation_characterization_witness :
    ((21000 : Nat) < 2 ^ 63)
    ∧ (arbitrage.augmentWithGas (.ok ⟨21000⟩) (.ok ⟨5⟩)
        (default : Arbitrage)).netProfitWei
      = some ((default : Arbitrage).profit - ((21000 : Nat) : Int) * 5)
    ∧ ((default : Arbitrage).netProfitWei = none →
        (arbitrage.IsProfitable (default : Arbitrage) = true
          ↔ 0 < (default : Arbitrage).profit)) :=
  ⟨by decide,
   (gas_augmentation_characterization ⟨21000⟩ ⟨5⟩ ("x") (.ok ⟨5⟩) default).2.1
     (by decide),
   (gas_augmentation_characterization ⟨21000⟩ ⟨5⟩ ("x") (.ok ⟨5⟩) default).2.2.2.2⟩

/-- Lookup hits the freshly inserted head entry. -/
lemma cacheLookup_cons_self {I : Type} (c : List (Address × I)) (k : Address) (v : I) :
    cacheLookup ((k, v) :: c) k = some v := by
  simp [cacheLookup]

/-- Lookup skips a head entry with a different key. -/
lemma cacheLookup_cons_ne {I : Type} (c : List (Address × I)) (k a : Address) (v : I)
    (h : a ≠ k) : cacheLookup ((k, v) :: c) a = cacheLookup c a := by
  simp [cacheLookup, h]

/-- C5: pool metadata is resolved on-chain at most once per decoder
instance. For both decoders: a cache hit answers from the cache with zero
calls and an unchanged cache; a failed resolution (any of the token0,
token1 or — for V3 — fee reads erroring) leaves the cache without any
partial entry; stored entries are never mutated or evicted by later
lookups; and after one successful resolution, a repeat lookup for the same
address answers the same value with zero on-chain calls no matter what the
chain would now return. -/
theorem pool_metadata_cache_characterization (oracle oracle2 : CallOracle)
    (v3Cache : List (Address × uniswapv3.PoolInfo))
    (v2Cache : List (Address × uniswapv2.PoolInfo)) (poolAddress : Address) :
    (∀ i, cacheLookup v3Cache poolAddress = some i →
        uniswapv3.getPoolInfo oracle v3Cache poolAddress = (.ok i, v3Cache, 0))
    ∧ (∀ e c n, uniswapv3.getPoolInfo oracle v3Cache poolAddress = (.error e, c, n) →
        c = v3Cache)
    ∧ (∀ a i, cacheLookup v3Cache a = some i →
        cacheLookup (uniswapv3.getPoolInfo oracle v3Cache poolAddress).2.1 a = some i)
    ∧ (∀ i c n, uniswapv3.getPoolInfo oracle v3Cache poolAddress = (.ok i, c, n) →
        uniswapv3.getPoolInfo oracle2 c poolAddress = (.ok i, c, 0))
    ∧ (∀ i, cacheLookup v2Cache poolAddress = some i →
        uniswapv2.getPoolInfo oracle v2Cache poolAddress = (.ok i, v2Cache, 0))
    ∧ (∀ e c n, uniswapv2.getPoolInfo oracle v2Cache poolAddress = (.error e, c, n) →
        c = v2Cache)
    ∧ (∀ a i, cacheLookup v2Cache a = some i →
        cacheLookup (uniswapv2.getPoolInfo oracle v2Cache poolAddress).2.1 a = some i)
    ∧ (∀ i c n, uniswapv2.getPoolInfo oracle v2Cache poolAddress = (.ok i, c, n) →
        uniswapv2.getPoolInfo oracle2 c poolAddress = (.ok i, c, 0)) := by
  refine ⟨?_, ?_, ?_, ?_, ?_, ?_, ?_, ?_⟩
  · intro i hi
    simp [uniswapv3.getPoolInfo, hi]
  · intro e c n h
    unfold uniswapv3.getPoolInfo at h
    cases hcl : cacheLookup v3Cache poolAddress <;> rw [hcl] at h
    · cases h0 : uniswapv3.callToken0 oracle poolAddress <;> rw [h0] at h
      · simp_all
      · cases h1 : uniswapv3.callToken1 oracle poolAddress <;> rw [h1] at h
        · simp_all
        · cases hf : uniswapv3.callFee oracle poolAddress <;> rw [hf] at h
          · simp_all
          · simp_all
    · simp_all
  · intro a i hi
    unfold uniswapv3.getPoolInfo
    cases hcl : cacheLookup v3Cache poolAddress
    · cases h0 : uniswapv3.callToken0 oracle poolAddress
      · simpa using hi
      · cases h1 : uniswapv3.callToken1 oracle poolAddress
        · simpa using hi
        · cases hf : uniswapv3.callFee oracle poolAddress
          · simpa using hi
          · have hne : a ≠ poolAddress := by
              intro hap
              rw [hap, hcl] at hi
              cases hi
            simpa [cacheLookup_cons_ne _ _ _ _ hne] using hi
    · simpa using hi
  · intro i c n h
    unfold uniswapv3.getPoolInfo at h
    cases hcl : cacheLookup v3Cache poolAddress <;> rw [hcl] at h
    · cases h0 : uniswapv3.callToken0 oracle poolAddress <;> rw [h0] at h
      · simp_all
      · cases h1 : uniswapv3.callToken1 oracle poolAddress <;> rw [h1] at h
        · simp_all
        · cases hf : uniswapv3.callFee oracle poolAddress <;> rw [hf] at h
          · simp_all
          · simp only [Prod.mk.injEq, Except.ok.injEq] at h
            obtain ⟨hio, hc, -⟩ := h
            subst hc
            simp [uniswapv3.getPoolInfo, cacheLookup_cons_self, hio]
    · simp only [Prod.mk.injEq, Except.ok.injEq] at h
      obtain ⟨hio, hc, -⟩ := h
      subst hc
      simp [uniswapv3.getPoolInfo, hcl, hio]
  · intro i hi
    simp [uniswapv2.getPoolInfo, hi]
  · intro e c n h
    unfold uniswapv2.getPoolInfo at h
    cases hcl : cacheLookup v2Cache poolAddress <;> rw [hcl] at h
    · cases h0 : uniswapv2.callToken0 oracle poolAddress <;> rw [h0] at h
      · simp_all
      · cases h1 : uniswapv2.callToken1 oracle poolAddress <;> rw [h1] at h
        · simp_all
        · simp_all
    · simp_all
  · intro a i hi
    unfold uniswapv2.getPoolInfo
    cases hcl : cacheLookup v2Cache poolAddress
    · cases h0 : uniswapv2.callToken0 oracle poolAddress
      · simpa using hi
      · cases h1 : uniswapv2.callToken1 oracle poolAddress
        · simpa using hi
        · have hne : a ≠ poolAddress := by
            intro hap
            rw [hap, hcl] at hi
            cases hi
          simpa [cacheLookup_cons_ne _ _ _ _ hne] using hi
    · simpa using hi
  · intro i c n h
    unfold uniswapv2.getPoolInfo at h
    cases hcl : cacheLookup v2Cache poolAddress <;> rw [hcl] at h
    · cases h0 : uniswapv2.callToken0 oracle poolAddress <;> rw [h0] at h
      · simp_all
      · cases h1 : uniswapv2.callToken1 oracle poolAddress <;> rw [h1] at h
        · simp_all
        · simp only [Prod.mk.injEq, Except.ok.injEq] at h
          obtain ⟨hio, hc, -⟩ := h
          subst hc
          simp [uniswapv2.getPoolInfo, cacheLookup_cons_self, hio]
    · simp only [Prod.mk.injEq, Except.ok.injEq] at h
      obtain ⟨hio, hc, -⟩ := h
      subst hc
      simp [uniswapv2.getPoolInfo, hcl, hio]

/-- All-zero call oracle used by the C5 witness. -/
def zeroOracle : CallOracle := fun _ _ => .ok (List.replicate 32 (0 : Byte))

/-- Witness for C5: a cache hit answers with zero calls, and a fresh
successful resolution is answered from the cache on the repeat lookup even
against an oracle that now always fails. -/
theorem pool_metadata_cache_characterization_witness :
    uniswapv3.getPoolInfo zeroOracle [(5, ⟨1, 2, 3⟩)] 5 = (.ok ⟨1, 2, 3⟩, [(5, ⟨1, 2, 3⟩)], 0)
    ∧ uniswapv3.getPoolInfo (fun _ _ => .error ("down")) [(5, ⟨0, 0, 0⟩)] 5
        = (.ok ⟨0, 0, 0⟩, [(5, ⟨0, 0, 0⟩)], 0) :=
  ⟨(pool_metadata_cache_characterization zeroOracle zeroOracle [(5, ⟨1, 2, 3⟩)] [] 5).1
     ⟨1, 2, 3⟩ (by decide),
   (pool_metadata_cache_characterization zeroOracle (fun _ _ => .error ("down"))
       [] [] 5).2.2.2.1 ⟨0, 0, 0⟩ [(5, ⟨0, 0, 0⟩)] 3 rfl⟩

/-- C8: both decoders reject a log with fewer than 3 topics, the V2
decoder rejects a payload under 128 bytes, the V3 decoder one under 160
bytes — all as decode errors producing no swap — and a log whose unified
decode errors contributes nothing to its transaction's batch: the
remaining logs decode exactly as if it were absent. -/
theorem decode_validation_characterization
    (v2Pool : Address → Except String uniswapv2.PoolInfo)
    (v3Pool : Address → Except String uniswapv3.PoolInfo)
    (log : RawLog) (enableV2 enableV3 : Bool) (logs1 logs2 : List RawLog) :
    (log.topics.length < 3 → ∃ e, uniswapv2.DecodeSwapLog v2Pool log = .error e)
    ∧ (log.topics.length < 3 → ∃ e, uniswapv3.DecodeSwapLog v3Pool log = .error e)
    ∧ (log.data.length < 128 → ∃ e, uniswapv2.DecodeSwapLog v2Pool log = .error e)
    ∧ (log.data.length < 160 → ∃ e, uniswapv3.DecodeSwapLog v3Pool log = .error e)
    ∧ ((∃ e, decoder.DecodeSwapLog enableV2 enableV3 v2Pool v3Pool log = .error e) →
        decoder.DecodeSwapsForTransaction enableV2 enableV3 v2Pool v3Pool
            (logs1 ++ log :: logs2)
          = decoder.DecodeSwapsForTransaction enableV2 enableV3 v2Pool v3Pool
            (logs1 ++ logs2)) := by
  refine ⟨fun h => ?_, fun h => ?_, fun h => ?_, fun h => ?_, fun hbad => ?_⟩
  · exact ⟨("invalid swap log: expected 3 topics"),
      by simp [uniswapv2.DecodeSwapLog, h]⟩
  · exact ⟨("invalid swap log: expected 3 topics"),
      by simp [uniswapv3.DecodeSwapLog, h]⟩
  · unfold uniswapv2.DecodeSwapLog
    split_ifs <;> exact ⟨_, rfl⟩
  · unfold uniswapv3.DecodeSwapLog
    split_ifs <;> exact ⟨_, rfl⟩
  · obtain ⟨e, he⟩ := hbad
    unfold decoder.DecodeSwapsForTransaction
    rw [List.filterMap_append, List.filterMap_append, List.filterMap_cons, he]

/-- Pool resolvers used by the C8 and C3 witnesses. -/
def demoV2PoolOf : Address → Except String uniswapv2.PoolInfo :=
  fun _ => .ok ⟨11, 22, none, none⟩

/-- V3 pool resolver used by the C8 and C3 witnesses. -/
def demoV3PoolOf : Address → Except String uniswapv3.PoolInfo :=
  fun _ => .ok ⟨11, 22, 3000⟩

/-- A malformed log: carries the V2 signature but only one topic. -/
def demoBadLog : RawLog :=
  { address := 9
    topics := [uniswapv2.SwapEventSignature]
    data := []
    txHash := 4
    blockNumber := 100
    index := 7 }

/-- A well-formed V2 log used to exercise sibling tolerance. -/
def demoV2Log : RawLog :=
  { address := 9
    topics := [uniswapv2.SwapEventSignature, 0xAA, 0xBB]
    data := List.replicate 31 0 ++ [1] ++ List.replicate 96 0
    txHash := 4
    blockNumber := 100
    index := 8 }

/-- Witness for C8: the malformed log decodes to an error under both
decoders and its presence does not change the decoded batch. -/
theorem decode_validation_characterization_witness :
    (demoBadLog.topics.length < 3)
    ∧ (∃ e, uniswapv2.DecodeSwapLog demoV2PoolOf demoBadLog = .error e)
    ∧ (∃ e, uniswapv3.DecodeSwapLog demoV3PoolOf demoBadLog = .error e)
    ∧ decoder.DecodeSwapsForTransaction true true demoV2PoolOf demoV3PoolOf
        ([demoV2Log] ++ demoBadLog :: [])
      = decoder.DecodeSwapsForTransaction true true demoV2PoolOf demoV3PoolOf
        ([demoV2Log] ++ []) :=
  ⟨by decide,
   (decode_validation_characterization demoV2PoolOf demoV3PoolOf demoBadLog
      true true [demoV2Log] []).1 (by decide),
   (decode_validation_characterization demoV2PoolOf demoV3PoolOf demoBadLog
      true true [demoV2Log] []).2.1 (by decide),
   (decode_validation_characterization demoV2PoolOf demoV3PoolOf demoBadLog
      true true [demoV2Log] []).2.2.2.2
     ⟨("invalid swap log: expected 3 topics"), rfl⟩⟩

/-- C3: on every valid V3 swap log whose pool metadata resolves, decoding
succeeds and resolves two's-complement signs into the In/Out split: a
negative amount0 gives amount0Out = −amount0 with amount0In = 0, a
positive amount0 gives amount0In = amount0 with amount0Out = 0, likewise
for amount1; the tick field carries the two's-complement reading of the
fifth word; and all four normalized amount fields are nonnegative. -/
theorem v3_sign_resolution (poolInfoOf : Address → Except String uniswapv3.PoolInfo)
    (log : RawLog) (poolData : uniswapv3.PoolInfo)
    (htop : 3 ≤ log.topics.length)
    (hsig : log.topics.headD 0 = uniswapv3.SwapEventSignature)
    (hdata : 160 ≤ log.data.length)
    (hpool : poolInfoOf log.address = .ok poolData) :
    ∃ s, uniswapv3.DecodeSwapLog poolInfoOf log = .ok s
      ∧ (signedWordAt log.data 0 < 0 →
          s.amount0Out = -signedWordAt log.data 0 ∧ s.amount0In = 0)
      ∧ (0 < signedWordAt log.data 0 →
          s.amount0In = signedWordAt log.data 0 ∧ s.amount0Out = 0)
      ∧ (signedWordAt log.data 32 < 0 →
          s.amount1Out = -signedWordAt log.data 32 ∧ s.amount1In = 0)
      ∧ (0 < signedWordAt log.data 32 →
          s.amount1In = signedWordAt log.data 32 ∧ s.amount1Out = 0)
      ∧ s.tick = some (signedWordAt log.data 128)
      ∧ 0 ≤ s.amount0In ∧ 0 ≤ s.amount1In ∧ 0 ≤ s.amount0Out ∧ 0 ≤ s.amount1Out := by
  unfold uniswapv3.DecodeSwapLog
  rw [if_neg (by omega), if_neg (by simp only [ne_eq, not_not]; exact hsig),
    if_neg (by omega), hpool]
  refine ⟨_, rfl, ?_, ?_, ?_, ?_, rfl, ?_, ?_, ?_, ?_⟩
  · intro hneg
    simp only
    rw [if_neg (by omega)]
    exact ⟨rfl, rfl⟩
  · intro hpos
    simp only
    rw [if_pos hpos]
    exact ⟨rfl, rfl⟩
  · intro hneg
    simp only
    rw [if_neg (by omega)]
    exact ⟨rfl, rfl⟩
  · intro hpos
    simp only
    rw [if_pos hpos]
    exact ⟨rfl, rfl⟩
  · simp only
    split <;> simp <;> omega
  · simp only
    split <;> simp <;> omega
  · simp only
    split <;> simp <;> omega
  · simp only
    split <;> simp <;> omega

/-- A well-formed V3 log with amount0 = −1 (all-ones word), amount1 = 50
and tick 0, used by the C3 witness. -/
def demoV3Log : RawLog :=
  { address := 9
    topics := [uniswapv3.SwapEventSignature, 0xAA, 0xBB]
    data := List.replicate 32 255 ++ (List.replicate 31 0 ++ [50]) ++ List.replicate 96 0
    txHash := 4
    blockNumber := 100
    index := 9 }

/-- Witness for C3 at `demoV3Log`. -/
theorem v3_sign_resolution_witness :
    (3 ≤ demoV3Log.topics.length)
    ∧ ∃ s, uniswapv3.DecodeSwapLog demoV3PoolOf demoV3Log = .ok s
      ∧ (signedWordAt demoV3Log.data 0 < 0 →
          s.amount0Out = -signedWordAt demoV3Log.data 0 ∧ s.amount0In = 0)
      ∧ (0 < signedWordAt demoV3Log.data 0 →
          s.amount0In = signedWordAt demoV3Log.data 0 ∧ s.amount0Out = 0)
      ∧ (signedWordAt demoV3Log.data 32 < 0 →
          s.amount1Out = -signedWordAt demoV3Log.data 32 ∧ s.amount1In = 0)
      ∧ (0 < signedWordAt demoV3Log.data 32 →
          s.amount1In = signedWordAt demoV3Log.data 32 ∧ s.amount1Out = 0)
      ∧ s.tick = some (signedWordAt demoV3Log.data 128)
      ∧ 0 ≤ s.amount0In ∧ 0 ≤ s.amount1In ∧ 0 ≤ s.amount0Out ∧ 0 ≤ s.amount1Out :=
  ⟨by decide,
   v3_sign_resolution demoV3PoolOf demoV3Log ⟨11, 22, 3000⟩
     (by decide) (by decide) (by decide) rfl⟩

/-- Lexicographic order on character lists is asymmetric. -/
lemma lexLt_asymm : ∀ (x y : List Char), lexLt x y = true → lexLt y x = false := by
  intro x
  induction x with
  | nil =>
    intro y h
    cases y with
    | nil => simp [lexLt] at h
    | cons b bs => simp [lexLt]
  | cons a as ih =>
    intro y h
    cases y with
    | nil => simp [lexLt] at h
    | cons b bs =>
      simp only [lexLt] at h ⊢
      by_cases hab : a < b
      · rw [if_neg (lt_asymm hab), if_neg (fun hba => absurd hba.symm (ne_of_lt hab))]
      · rw [if_neg hab] at h
        by_cases heq : a = b
        · rw [if_pos heq] at h
          rw [if_neg (by rw [heq]; exact lt_irrefl b), if_pos heq.symm]
          exact ih bs h
        · rw [if_neg heq] at h
          exact absurd h (by simp)

/-- Character lists unrelated by `lexLt` in either direction are equal. -/
lemma lexLt_conn : ∀ (x y : List Char),
    lexLt x y = false → lexLt y x = false → x = y := by
  intro x
  induction x with
  | nil =>
    intro y h1 _h2
    cases y with
    | nil => rfl
    | cons b bs => simp [lexLt] at h1
  | cons a as ih =>
    intro y h1 h2
    cases y with
    | nil => simp [lexLt] at h2
    | cons b bs =>
      simp only [lexLt] at h1 h2
      rcases lt_trichotomy a b with hab | heq | hba
      · rw [if_pos hab] at h1
        exact absurd h1 (by simp)
      · rw [if_neg (by rw [heq]; exact lt_irrefl b), if_pos heq] at h1
        rw [if_neg (by rw [heq]; exact lt_irrefl b), if_pos heq.symm] at h2
        rw [heq, ih bs h1 h2]
      · rw [if_pos hba] at h2
        exact absurd h2 (by simp)

/-- Go string order is asymmetric. -/
lemma goStringLt_asymm (s t : String) (h : goStringLt s t = true) :
    goStringLt t s = false :=
  lexLt_asymm s.data t.data h

/-- Strings unrelated by Go string order in either direction are equal. -/
lemma goStringLt_conn (s t : String) (h1 : goStringLt s t = false)
    (h2 : goStringLt t s = false) : s = t := by
  cases s
  cases t
  simp only [goStringLt] at h1 h2
  rw [lexLt_conn _ _ h1 h2]

/-- Canonical text of the first demo address: one uppercase hex letter. -/
def demoHexA : String := "0xB000000000000000000000000000000000000000"

/-- Canonical text of the second demo address: one lowercase hex letter. -/
def demoHexB : String := "0xa000000000000000000000000000000000000000"

/-- Numeric value of the first demo address. -/
def demoAddrA : Address := hexStringVal demoHexA

/-- Numeric value of the second demo address. -/
def demoAddrB : Address := hexStringVal demoHexB

/-- Text representation function for the two demo addresses, standing in
for the EIP-55 mixed-case output of `common.Address.Hex`. -/
def demoHexRepr : Address → String :=
  fun n => if n = demoAddrA then demoHexA else if n = demoAddrB then demoHexB else ("")

/-- C7: the cross-venue pair key orders the two token addresses by the Go
string order of their canonical hex text, putting the textually smaller
first in both orientations, and is orientation-independent for any
injective text representation; the demo pair shows a pair whose textual
order ('B' before 'a' in ASCII) disagrees with its numeric order, on
which the key still follows the textual order. -/
theorem pair_key_textual_order (hexRepr : Address → String) (a b : Address) :
    (goStringLt (hexRepr a) (hexRepr b) = true →
        arbitrage.pairKeyOf hexRepr a b = (a, b)
        ∧ arbitrage.pairKeyOf hexRepr b a = (a, b))
    ∧ (Function.Injective hexRepr →
        arbitrage.pairKeyOf hexRepr a b = arbitrage.pairKeyOf hexRepr b a)
    ∧ (goStringLt demoHexA demoHexB = true
        ∧ demoAddrB < demoAddrA
        ∧ arbitrage.pairKeyOf demoHexRepr demoAddrA demoAddrB = (demoAddrA, demoAddrB)
        ∧ arbitrage.pairKeyOf demoHexRepr demoAddrB demoAddrA = (demoAddrA, demoAddrB)) := by
  refine ⟨fun h => ?_, fun hinj => ?_, by decide, by decide, by decide, by decide⟩
  · constructor
    · simp [arbitrage.pairKeyOf, h]
    · simp [arbitrage.pairKeyOf, goStringLt_asymm _ _ h]
  · by_cases h1 : goStringLt (hexRepr a) (hexRepr b) = true
    · simp [arbitrage.pairKeyOf, h1, goStringLt_asymm _ _ h1]
    · by_cases h2 : goStringLt (hexRepr b) (hexRepr a) = true
      · simp [arbitrage.pairKeyOf, h2, Bool.eq_false_iff.mpr h1]
      · have heq : hexRepr a = hexRepr b :=
          goStringLt_conn _ _ (Bool.eq_false_iff.mpr h1) (Bool.eq_false_iff.mpr h2)
        rw [hinj heq]

/-- Witness for C7: the pair key at the demo addresses puts the textually
smaller address first in both orientations. -/
theorem pair_key_textual_order_witness :
    (goStringLt (demoHexRepr demoAddrA) (demoHexRepr demoAddrB) = true)
    ∧ arbitrage.pairKeyOf demoHexRepr demoAddrA demoAddrB = (demoAddrA, demoAddrB)
    ∧ arbitrage.pairKeyOf demoHexRepr demoAddrB demoAddrA = (demoAddrA, demoAddrB) :=
  ⟨by decide,
   ((pair_key_textual_order demoHexRepr demoAddrA demoAddrB).1 (by decide)).1,
   ((pair_key_textual_order demoHexRepr demoAddrA demoAddrB).1 (by decide)).2⟩

/-- C6: a cross-venue finding for a pair group exists only when the group
touches at least two distinct pools and the selected buy and sell legs sit
on different pools; the finding's path is exactly [buy leg, sell leg], its
profit is the sell leg's reference-token amount received minus the buy
leg's reference-token amount spent, that profit is strictly positive, and
start, end and profit token are all the reference token. -/
theorem cross_dex_group_characterization (swapsForPair : List Swap) (arb : Arbitrage)
    (h : arbitrage.processPairGroup swapsForPair = some arb) :
    2 ≤ arbitrage.distinctPools swapsForPair
    ∧ ∃ buySwap sellSwap,
        arbitrage.selectLegs swapsForPair none none = (some buySwap, some sellSwap)
        ∧ buySwap.pool ≠ sellSwap.pool
        ∧ arb.path = [buySwap, sellSwap]
        ∧ arb.profit = arbitrage.wethOutOf sellSwap - arbitrage.wethInOf buySwap
        ∧ 0 < arb.profit
        ∧ arb.tokenStart = arbitrage.WETH
        ∧ arb.tokenEnd = arbitrage.WETH
        ∧ arb.profitToken = arbitrage.WETH := by
  unfold arbitrage.processPairGroup at h
  rw [if_neg (by intro hlt; rw [if_pos hlt] at h; cases h)] at h
  by_cases hpools : arbitrage.distinctPools swapsForPair < 2
  · rw [if_pos hpools] at h
    cases h
  · rw [if_neg hpools] at h
    refine ⟨by omega, ?_⟩
    rcases hsel : arbitrage.selectLegs swapsForPair none none with ⟨optBuy, optSell⟩
    rw [hsel] at h
    cases optBuy with
    | none => cases h
    | some buySwap =>
      cases optSell with
      | none => cases h
      | some sellSwap =>
        simp only at h
        by_cases hpool : buySwap.pool ≠ sellSwap.pool
        · rw [if_pos hpool] at h
          by_cases hprofit : arbitrage.wethInOf buySwap < arbitrage.wethOutOf sellSwap
          · rw [if_pos hprofit] at h
            refine ⟨buySwap, sellSwap, rfl, hpool, ?_⟩
            obtain rfl := Option.some.inj h
            refine ⟨rfl, rfl, by simp; omega, rfl, rfl, rfl⟩
          · rw [if_neg hprofit] at h
            cases h
        · rw [if_neg hpool] at h
          cases h

/-- Buy leg for the C6 witness: spends 1000000 units of the reference
token on pool 100. -/
def demoBuySwap : Swap :=
  { txHash := 4
    blockNumber := 100
    logIndex := 1
    pool := 100
    protocol := "uniswap_v2"
    sender := 5
    recipient := 6
    token0 := arbitrage.WETH
    token1 := 7
    amount0In := 1000000
    amount1In := 0
    amount0Out := 0
    amount1Out := 3
    sqrtPriceX96 := none
    liquidity := none
    tick := none }

/-- Sell leg for the C6 witness: receives 1050000 units of the reference
token on pool 200. -/
def demoSellSwap : Swap :=
  { txHash := 4
    blockNumber := 100
    logIndex := 2
    pool := 200
    protocol := "uniswap_v2"
    sender := 5
    recipient := 6
    token0 := arbitrage.WETH
    token1 := 7
    amount0In := 0
    amount1In := 3
    amount0Out := 1050000
    amount1Out := 0
    sqrtPriceX96 := none
    liquidity := none
    tick := none }

/-- Witness for C6 at the two-leg demo group: a finding exists and the
characterization applies to it. -/
theorem cross_dex_group_characterization_witness :
    (∃ arb, arbitrage.processPairGroup [demoBuySwap, demoSellSwap] = some arb
      ∧ 2 ≤ arbitrage.distinctPools [demoBuySwap, demoSellSwap]
      ∧ ∃ buySwap sellSwap,
          arbitrage.selectLegs [demoBuySwap, demoSellSwap] none none
            = (some buySwap, some sellSwap)
          ∧ buySwap.pool ≠ sellSwap.pool
          ∧ arb.path = [buySwap, sellSwap]
          ∧ arb.profit = arbitrage.wethOutOf sellSwap - arbitrage.wethInOf buySwap
          ∧ 0 < arb.profit
          ∧ arb.tokenStart = arbitrage.WETH
          ∧ arb.tokenEnd = arbitrage.WETH
          ∧ arb.profitToken = arbitrage.WETH) :=
  match harb : arbitrage.processPairGroup [demoBuySwap, demoSellSwap] with
  | some arb => ⟨arb, rfl, cross_dex_group_characterization [demoBuySwap, demoSellSwap] arb harb⟩
  | none => absurd harb (by decide)

/-- C2: over the derived token flows of a transaction's swap list (at
least two flows), the cyclic detector fires exactly when the first flow's
input token equals the last flow's output token, every consecutive pair of
flows is connected (`flowsConnected` is the source's indexed loop, so any
break anywhere fails the whole transaction), and the last flow's output
amount strictly exceeds the first flow's input amount; the finding's
profit is that difference and its start, end and profit tokens all equal
the shared first token; at most one cyclic finding arises per
transaction. -/
theorem cyclic_detection_characterization (swaps : List Swap)
    (h2 : 2 ≤ (arbitrage.deriveFlows swaps).length) :
    ((arbitrage.detectCyclicArbitrage swaps).isSome = true ↔
        (((arbitrage.deriveFlows swaps).headD default).tokenIn
            = ((arbitrage.deriveFlows swaps).getLastD default).tokenOut
        ∧ arbitrage.flowsConnected (arbitrage.deriveFlows swaps) = true
        ∧ ((arbitrage.deriveFlows swaps).headD default).amountIn
            < ((arbitrage.deriveFlows swaps).getLastD default).amountOut))
    ∧ (∀ arb, arbitrage.detectCyclicArbitrage swaps = some arb →
        arb.profit = ((arbitrage.deriveFlows swaps).getLastD default).amountOut
            - ((arbitrage.deriveFlows swaps).headD default).amountIn
        ∧ arb.tokenStart = ((arbitrage.deriveFlows swaps).headD default).tokenIn
        ∧ arb.tokenEnd = ((arbitrage.deriveFlows swaps).headD default).tokenIn
        ∧ arb.profitToken = ((arbitrage.deriveFlows swaps).headD default).tokenIn)
    ∧ (arbitrage.detectCyclicArbitrage swaps).toList.length ≤ 1 := by
  have hlen : (arbitrage.deriveFlows swaps).length ≤ swaps.length :=
    List.length_filterMap_le _ _
  have hsl : ¬ swaps.length < 2 := by omega
  simp only [arbitrage.detectCyclicArbitrage]
  rw [if_neg hsl, if_neg (show ¬ (arbitrage.deriveFlows swaps).length < 2 by omega)]
  by_cases hc1 : ((arbitrage.deriveFlows swaps).headD default).tokenIn
      ≠ ((arbitrage.deriveFlows swaps).getLastD default).tokenOut
  · rw [if_pos hc1]
    refine ⟨⟨fun hfire => ?_, fun hfire => ?_⟩, fun arb harb => ?_, by simp⟩
    · simp at hfire
    · exact absurd hfire.1 hc1
    · simp at harb
  · rw [if_neg hc1]
    have heq : ((arbitrage.deriveFlows swaps).headD default).tokenIn
        = ((arbitrage.deriveFlows swaps).getLastD default).tokenOut :=
      not_ne_iff.mp hc1
    by_cases hc2 : arbitrage.flowsConnected (arbitrage.deriveFlows swaps) = false
    · rw [if_pos hc2]
      refine ⟨⟨fun hfire => ?_, fun hfire => ?_⟩, fun arb harb => ?_, by simp⟩
      · simp at hfire
      · rw [hfire.2.1] at hc2
        cases hc2
      · simp at harb
    · rw [if_neg hc2]
      have hc2t : arbitrage.flowsConnected (arbitrage.deriveFlows swaps) = true := by
        cases hb : arbitrage.flowsConnected (arbitrage.deriveFlows swaps)
        · exact absurd hb hc2
        · rfl
      by_cases hc3 : ((arbitrage.deriveFlows swaps).getLastD default).amountOut
          ≤ ((arbitrage.deriveFlows swaps).headD default).amountIn
      · rw [if_pos hc3]
        refine ⟨⟨fun hfire => ?_, fun hfire => ?_⟩, fun arb harb => ?_, by simp⟩
        · simp at hfire
        · have := hfire.2.2
          omega
        · simp at harb
      · rw [if_neg hc3]
        refine ⟨?_, ?_, by simp⟩
        · simp only [Option.isSome_some, true_iff]
          exact ⟨heq, hc2t, by omega⟩
        · intro arb harb
          obtain rfl := Option.some.inj harb
          exact ⟨rfl, rfl, heq.symm, rfl⟩

/-- First leg of the C2 witness cycle: 100 of token 1 in, 50 of token 2
out. -/
def demoCycleSwapA : Swap :=
  { txHash := 4
    blockNumber := 100
    logIndex := 1
    pool := 100
    protocol := "uniswap_v2"
    sender := 5
    recipient := 6
    token0 := 1
    token1 := 2
    amount0In := 100
    amount1In := 0
    amount0Out := 0
    amount1Out := 50
    sqrtPriceX96 := none
    liquidity := none
    tick := none }

/-- Second leg of the C2 witness cycle: 50 of token 2 in, 150 of token 1
out, closing the cycle with profit 50. -/
def demoCycleSwapB : Swap :=
  { txHash := 4
    blockNumber := 100
    logIndex := 2
    pool := 200
    protocol := "uniswap_v2"
    sender := 5
    recipient := 6
    token0 := 2
    token1 := 1
    amount0In := 50
    amount1In := 0
    amount0Out := 0
    amount1Out := 150
    sqrtPriceX96 := none
    liquidity := none
    tick := none }

/-- Witness for C2: the demo cycle satisfies the characterization's
conditions, so the detector fires on it. -/
theorem cyclic_detection_characterization_witness :
    (2 ≤ (arbitrage.deriveFlows [demoCycleSwapA, demoCycleSwapB]).length)
    ∧ (arbitrage.detectCyclicArbitrage [demoCycleSwapA, demoCycleSwapB]).isSome = true :=
  ⟨by decide,
   ((cyclic_detection_characterization [demoCycleSwapA, demoCycleSwapB]
       (by decide)).1).mpr (by decide)⟩

end MevInspector
